import Mathlib

/-!
Verification development for the interpretability utilities of the
backward-chaining-circuits repository (`graphcot/interp_utils.py`).

Shallow embedding conventions:
* Numeric tensor entries are rationals (`ℚ`); the real-valued `exp` used by
  softmax is abstracted as a function parameter.
* The activation-patching half models tensors as total functions
  `batch → position → dim → ℚ`, which makes hook overrides pointwise updates.
* The aggregation / lens half models tensors as nested lists
  (batch × position × hidden), so that Python slicing (including negative
  indices) can be embedded faithfully.
* Repository modules that are external to `interp_utils.py`
  (`tree_generation.generate_example`, `utils.is_model_correct`,
  `utils.get_example_cache`, `utils.num_last`, `probing.LinearClsProbe`) are
  either universally quantified parameters or, where their behaviour is
  needed, modelled from the spec (marked in their doc comments).
* `print` calls and plot/figure construction are presentation sinks and are
  dropped; the embedded functions return the data the source computes.
-/

/-- Tensor scalar type. -/
abbrev Val := ℚ

/-- Probe-point identifiers, the closed enumeration corresponding to the
string activation names used in the source:
`tl_util.get_act_name("resid_pre", L)`, `tl_util.get_act_name("normalized", L, "ln1")`
and `"ln_final.hook_normalized"`. -/
inductive ProbePoint where
  | residPre (layer : Nat)
  | lnNormalized (layer : Nat)
  | lnFinalNormalized
deriving DecidableEq, Repr

/-- Activation tensor for the patching half: batch × position × d_model. -/
abbrev ActP := Nat → Nat → Nat → Val

/-- Logit tensor for the patching half: batch × position × d_vocab. -/
abbrev LogitsP := Nat → Nat → Nat → Val

/-- Activation cache of a forward pass (patching half). -/
abbrev CacheP := ProbePoint → ActP

/-- A forward hook: receives the live activation and the hook point it is
bound to (the `hook` argument of the Python hook, whose `.name` the hook
reads), and returns the replacement activation. -/
abbrev HookFn := ActP → ProbePoint → ActP

/-- The `fwd_hooks` list passed to `model.run_with_hooks`. -/
abbrev Hooks := List (ProbePoint × HookFn)

/-- Abstract layered autoregressive model (the transformer-lens
`HookedTransformer` consumed by the patching engine): an embedding map, one
block per layer acting on the residual stream, and an unembedding producing
logits.  `resid_pre` of layer `L` is the residual stream entering block `L`. -/
structure ModelP where
  n_layers : Nat
  embed : List Nat → ActP
  block : Nat → ActP → ActP
  unembed : ActP → LogitsP

/-- Apply every hook of `hooks` that is bound to probe point `pp`, in list
order, to activation `a`. -/
def applyHooks (hooks : Hooks) (pp : ProbePoint) (a : ActP) : ActP :=
  hooks.foldl (fun acc h => if h.1 = pp then h.2 acc pp else acc) a

/-- Residual stream after `K` blocks, with `hooks` intercepting each
`resid_pre` point: the stream entering block `L` is the post-hook value of
`resid_pre L`. -/
def residStream (m : ModelP) (hooks : Hooks) (tokens : List Nat) : Nat → ActP
  | 0 => m.embed tokens
  | L + 1 => m.block L (applyHooks hooks (ProbePoint.residPre L) (residStream m hooks tokens L))

/-- Embeds `model.run_with_hooks(tokens, fwd_hooks=hooks)`. -/
def run_with_hooks (m : ModelP) (tokens : List Nat) (hooks : Hooks) : LogitsP :=
  m.unembed (residStream m hooks tokens m.n_layers)

/-- A plain forward pass `model(tokens)`. -/
def forwardP (m : ModelP) (tokens : List Nat) : LogitsP :=
  run_with_hooks m tokens []

/-- Embeds `model.run_with_cache(tokens)`: logits together with the activation
cache.  The cache records the value at each `resid_pre` hook point of the
(unhooked) pass; entries at probe points the patching engine never reads are
zero. -/
def run_with_cache (m : ModelP) (tokens : List Nat) : LogitsP × CacheP :=
  (forwardP m tokens,
   fun pp => match pp with
     | ProbePoint.residPre L => residStream m [] tokens L
     | _ => fun _ _ _ => 0)

/-- Embeds `logits_to_logit_diff(clean_tokens, corrupted_tokens, logits, comparison_index)`
from the source.  Token list indexing uses `getD` with default `0`; the
position argument `comparison_index - 1` is natural-number subtraction (the
engine is invoked with `comparison_index ≥ 1`; Python's negative-index
wraparound at `comparison_index = 0` is outside the embedded regime). -/
def logits_to_logit_diff (clean_tokens corrupted_tokens : List Nat)
    (logits : LogitsP) (comparison_index : Nat) : Val :=
  let correct_index := clean_tokens.getD comparison_index 0
  let incorrect_index := corrupted_tokens.getD comparison_index 0
  logits 0 (comparison_index - 1) correct_index -
    logits 0 (comparison_index - 1) incorrect_index

/-- Embeds `residual_stream_patching_hook(resid_pre, hook, position)` from the
source; `clean_cache` is the enclosing-scope capture.  It writes the clean
cache's value at `hook.name` into every batch row and hidden dimension of
`position`, leaving all other positions untouched:
`resid_pre[:, position, :] = clean_resid_pre[:, position, :]`. -/
def residual_stream_patching_hook (clean_cache : CacheP) (position : Nat)
    (resid_pre : ActP) (hook : ProbePoint) : ActP :=
  fun b p d => if p = position then clean_cache hook b p d else resid_pre b p d

/-- Embeds `activation_patching(model, dataset, clean_tokens, corrupted_tokens, comparison_index)`
from the source (the `dataset` argument only feeds `print` diagnostics and is
dropped).  The result grid is modelled as a total function that is zero
outside the filled `[n_layers, num_positions]` range (`torch.zeros`
initialisation). -/
def activation_patching (m : ModelP) (clean_tokens corrupted_tokens : List Nat)
    (comparison_index : Nat) : Nat → Nat → Val :=
  let clean_logits := (run_with_cache m clean_tokens).1
  let clean_cache := (run_with_cache m clean_tokens).2
  let clean_logit_diff :=
    logits_to_logit_diff clean_tokens corrupted_tokens clean_logits comparison_index
  let corrupted_logits := forwardP m corrupted_tokens
  let corrupted_logit_diff :=
    logits_to_logit_diff clean_tokens corrupted_tokens corrupted_logits comparison_index
  let num_positions := clean_tokens.length
  fun layer position =>
    if layer < m.n_layers ∧ position < num_positions then
      let temp_hook_fn := residual_stream_patching_hook clean_cache position
      let patched_logits :=
        run_with_hooks m corrupted_tokens [(ProbePoint.residPre layer, temp_hook_fn)]
      let patched_logit_diff :=
        logits_to_logit_diff clean_tokens corrupted_tokens patched_logits comparison_index
      let normalize_ratio := clean_logit_diff - corrupted_logit_diff
      let normalize_ratio := if normalize_ratio = 0 then 1 else normalize_ratio
      (patched_logit_diff - corrupted_logit_diff) / normalize_ratio
    else 0

/-- The clean-run baseline metric `clean_logit_diff` of the patching engine. -/
def cleanLogitDiff (m : ModelP) (clean_tokens corrupted_tokens : List Nat)
    (comparison_index : Nat) : Val :=
  logits_to_logit_diff clean_tokens corrupted_tokens
    (run_with_cache m clean_tokens).1 comparison_index

/-- The corrupted-run baseline metric `corrupted_logit_diff` of the patching
engine. -/
def corruptedLogitDiff (m : ModelP) (clean_tokens corrupted_tokens : List Nat)
    (comparison_index : Nat) : Val :=
  logits_to_logit_diff clean_tokens corrupted_tokens
    (forwardP m corrupted_tokens) comparison_index

/-- The single forward hook installed in the `(layer, position)` iteration of
the patching scan. -/
def patch_hooks (m : ModelP) (clean_tokens : List Nat) (layer position : Nat) : Hooks :=
  [(ProbePoint.residPre layer,
    residual_stream_patching_hook (run_with_cache m clean_tokens).2 position)]

/-- The patched metric `patched_logit_diff` of the `(layer, position)`
iteration. -/
def patchedLogitDiff (m : ModelP) (clean_tokens corrupted_tokens : List Nat)
    (comparison_index layer position : Nat) : Val :=
  logits_to_logit_diff clean_tokens corrupted_tokens
    (run_with_hooks m corrupted_tokens (patch_hooks m clean_tokens layer position))
    comparison_index

/-- A small concrete model used by witnesses. -/
def modelW : ModelP where
  n_layers := 2
  embed := fun ts => fun b p d => ((ts.getD p 0 : Nat) : Val) + b + d
  block := fun _ a => fun b p d => a b p d + 1
  unembed := fun a => a

/-- One-example activation tensor of the aggregation / lens half:
batch × position × hidden, as nested lists. -/
abbrev Tensor3 := List (List (List Val))

/-- Activation cache of the aggregation / lens half. -/
abbrev CacheT := ProbePoint → Tensor3

/-- Embeds `for key in activation_keys: D[key].append(v(key))` on a dictionary of
lists (modelled as a total function that is `[]` on absent keys). -/
def append_for_keys {T : Type} (keys : List ProbePoint) (m : ProbePoint → List T)
    (v : ProbePoint → T) : ProbePoint → List T :=
  keys.foldl (fun agg key => fun k => if k = key then agg k ++ [v key] else agg k) m

/-- Body of the sampling loop of `aggregate_activations`: check the model's
answer, silently skip incorrect instances (`if not correct: continue`), and
for accepted instances record the graph and append `cache[key].cpu()` for
every requested key. -/
def aggregate_step {G : Type} (is_model_correct : G → Bool)
    (get_example_cache : G → List String × CacheT) (cpu : Tensor3 → Tensor3)
    (activation_keys : List ProbePoint)
    (st : (ProbePoint → List Tensor3) × List G) (test_graph : G) :
    (ProbePoint → List Tensor3) × List G :=
  if is_model_correct test_graph then
    let cache := (get_example_cache test_graph).2
    (append_for_keys activation_keys st.1 (fun key => cpu (cache key)),
     st.2 ++ [test_graph])
  else st

/-- Embeds `aggregate_activations(model, dataset, activation_keys, n_samples, path_length, order)`
from the source.  `generate_example` (repo code outside `src/`, with its
random seed and the `path_length` / `order` structural parameters) is
abstracted as a function of the iteration index; the correctness oracle
`is_model_correct` and the cache builder `get_example_cache` (repo code
outside `src/`) are abstract parameters, and `cpu` abstracts the
`Tensor.cpu()` device move.  `agg_cache` starts as `{ak: [] for ak in
activation_keys}`. -/
def aggregate_activations {G : Type} (generate_example : Nat → G)
    (is_model_correct : G → Bool) (get_example_cache : G → List String × CacheT)
    (cpu : Tensor3 → Tensor3) (activation_keys : List ProbePoint) (n_samples : Nat) :
    (ProbePoint → List Tensor3) × List G :=
  ((List.range n_samples).map generate_example).foldl
    (aggregate_step is_model_correct get_example_cache cpu activation_keys)
    (fun _ => [], [])

/-- Concrete correctness oracle used by witnesses: accepts even graphs. -/
def oracleW : Nat → Bool := fun g => g % 2 == 0

/-- Concrete example-cache builder used by witnesses. -/
def gecW : Nat → List String × CacheT := fun g => ([], fun _ => [[[(g : Val)]]])

/-- Dataset interface consumed by the lens decoder and calibrator
(`idx2tokens`, `tokens2idx`, `start_token`, `tokenize`). -/
structure DatasetI (G : Type) where
  tokenize : G → List Nat
  start_token : Nat
  idx2tokens : Nat → String
  tokens2idx : String → Nat

/-- Python list/tensor slicing `l[a:b]` with step 1, including the
negative-index convention (`-1` addresses the last element). -/
def pySlice {α : Type} (l : List α) (a b : Int) : List α :=
  let n : Int := l.length
  let lo : Int := if a < 0 then max (n + a) 0 else min a n
  let hi : Int := if b < 0 then max (n + b) 0 else min b n
  (l.take hi.toNat).drop lo.toNat

/-- Embeds `np.where(tokens == t)[0].item()`: `.item()` succeeds exactly when the
match-index array has size one. -/
def npWhereItem (tokens : List Nat) (t : Nat) : Except String Nat :=
  match (List.range tokens.length).filter (fun i => tokens.getD i 0 = t) with
  | [i] => Except.ok i
  | _ => Except.error "can only convert an array of size 1 to a Python scalar"

/-- Embeds `torch.cat(ts, dim=0)`: raises on an empty list of tensors, otherwise
concatenates along the leading dimension. -/
def torch_cat {α : Type} (ts : List (List α)) : Except String (List α) :=
  match ts with
  | [] => Except.error "torch.cat expected a non-empty list of Tensors"
  | _ => Except.ok ts.flatten

/-- Embeds `np.concatenate(xs, axis=0)`: raises on an empty list of arrays,
otherwise concatenates along the leading axis. -/
def np_concatenate {α : Type} (xs : List (List α)) : Except String (List α) :=
  match xs with
  | [] => Except.error "need at least one array to concatenate"
  | _ => Except.ok xs.flatten

/-- Embeds `.T` on a rectangular 2-D tensor stored as rows. -/
def transposeMat (W : List (List Val)) : List (List Val) :=
  (List.range (W.headD []).length).map (fun i => W.map (fun row => row.getD i 0))

/-- Column `j` of the product of row vector `v` with matrix `W` (rows of `W`
indexed by the shared dimension). -/
def dotCol (v : List Val) (W : List (List Val)) (j : Nat) : Val :=
  ((List.range v.length).map (fun d => v.getD d 0 * (W.getD d []).getD j 0)).sum

/-- Row-vector–matrix product `v @ W`; the output length is the column count
of `W` (defined on shape-consistent inputs, as in the source). -/
def vecMatMul (v : List Val) (W : List (List Val)) : List Val :=
  (List.range (W.headD []).length).map (dotCol v W)

/-- Embeds `Tensor.argmax(-1)` on one row: index of the first maximal entry. -/
def argmaxRow (l : List Val) : Nat :=
  (l.enum.foldl (fun best p => if best.2 < p.2 then p else best) (0, l.headD 0)).1

/-- Row-wise softmax; the real-valued exponential is abstracted as `e`. -/
def softmaxRow (e : Val → Val) (l : List Val) : List Val :=
  let es := l.map e
  es.map (fun x => x / es.sum)

/-- The activation name chosen inside each lens loop iteration:
`tl_util.get_act_name("normalized", layer, "ln1")` for `layer < n_layers`,
else `"ln_final.hook_normalized"`. -/
def layer_act_name (n_layers layer : Nat) : ProbePoint :=
  if layer < n_layers then ProbePoint.lnNormalized layer else ProbePoint.lnFinalNormalized

/-- Model interface consumed by the lens decoder: configuration, the shared
unembedding `W_U` (hidden × vocab) and the forward pass with cache. -/
structure ModelL where
  n_layers : Nat
  W_U : List (List Val)
  run_with_cache : List Nat → List (List Val) × CacheT

/-- Modelled from the spec: `get_example_cache` lives in `graphcot/utils.py`,
which is not under `src/`.  Per the Model Interface (§6) it amounts to
`forwardWithCache(tokens) -> (logits, ActivationCache)` on the tokenized
example, returning the per-position labels together with the cache. -/
def get_example_cache {G : Type} (pred : G) (m : ModelL) (ds : DatasetI G) :
    List String × CacheT :=
  let tokens := ds.tokenize pred
  (tokens.map ds.idx2tokens, (m.run_with_cache tokens).2)

/-- The decoding matrix chosen inside each lens loop iteration:
`lenses[act_name] if lenses is not None else model.W_U`. -/
def lens_matrix (m : ModelL) (lenses : Option (ProbePoint → List (List Val)))
    (act_name : ProbePoint) : List (List Val) :=
  match lenses with
  | some ls => ls act_name
  | none => m.W_U

/-- Embeds `logit_lens(pred, model, dataset, lenses)` from the source, argmax mode.
`num_last` (repo code outside `src/`) is an abstract parameter; the final
plotly table is a presentation sink, so the embedded function returns the
decoded table rows (`outs`), one per layer: the header cell followed by the
argmax-decoded tokens of the `[47:end]` position window. -/
def logit_lens {G : Type} (num_last : List String → String → Nat) (pred : G)
    (m : ModelL) (ds : DatasetI G) (lenses : Option (ProbePoint → List (List Val))) :
    List (List String) :=
  let labels := (get_example_cache pred m ds).1
  let cache := (get_example_cache pred m ds).2
  let e := num_last labels ","
  (List.range' 1 m.n_layers).map (fun layer =>
    let act_name := layer_act_name m.n_layers layer
    let res_stream := (cache act_name).getD 0 []
    let out_proj := res_stream.map (fun r => vecMatMul r (lens_matrix m lenses act_name))
    let lens_out := (out_proj.map argmaxRow).map ds.idx2tokens
    ("Layer " ++ toString layer ++ " LL") :: pySlice lens_out 47 e)

/-- Embeds `logit_lens_correct_probs(pred, model, dataset, position, lenses)` from
the source (probability mode): per layer, the softmax probability assigned to
the correct next token at the fixed `position`; the matplotlib plot is a
presentation sink, the list of probabilities is returned as in the source. -/
def logit_lens_correct_probs {G : Type} (e : Val → Val) (pred : G) (m : ModelL)
    (ds : DatasetI G) (position : Nat)
    (lenses : Option (ProbePoint → List (List Val))) : List Val :=
  let labels := (get_example_cache pred m ds).1
  let cache := (get_example_cache pred m ds).2
  let correct_token := labels.getD (position + 1) ""
  let correct_token_idx := ds.tokens2idx correct_token
  (List.range' 1 m.n_layers).map (fun layer =>
    let act_name := layer_act_name m.n_layers layer
    let res_stream := (cache act_name).getD 0 []
    let out_proj := res_stream.map (fun r => vecMatMul r (lens_matrix m lenses act_name))
    let soft := out_proj.map (softmaxRow e)
    (soft.getD position []).getD correct_token_idx 0)

/-- Per-example index computation of the calibration loop:
`tokens = dataset.tokenize(graph)[:-1]`,
`start_idx = np.where(tokens == dataset.start_token)[0].item() + 2`,
`labels = [dataset.idx2tokens[idx] for idx in tokens]`,
`end_idx = num_last(labels, ",")`. -/
def calib_bounds {G : Type} (ds : DatasetI G)
    (num_last : List String → String → Nat) (graph : G) :
    Except String (List Nat × Nat × Nat) := do
  let tokens := (ds.tokenize graph).dropLast
  let wi ← npWhereItem tokens ds.start_token
  let start_idx := wi + 2
  let labels := tokens.map ds.idx2tokens
  let end_idx := num_last labels ","
  pure (tokens, start_idx, end_idx)

/-- The rows one example contributes to `X[key]`:
`acts[key][gidx][0, start_idx-1:end_idx-1]`. -/
def calib_X_entry (acts : ProbePoint → List Tensor3) (key : ProbePoint)
    (gidx start_idx end_idx : Nat) : List (List Val) :=
  pySlice (((acts key).getD gidx []).getD 0 [])
    ((start_idx : Int) - 1) ((end_idx : Int) - 1)

/-- The labels one example contributes to `y`: `tokens[start_idx:end_idx]`. -/
def calib_y_entry (tokens : List Nat) (start_idx end_idx : Nat) : List Nat :=
  pySlice tokens (start_idx : Int) (end_idx : Int)

/-- Body of the `for gidx, graph in enumerate(graphs)` loop assembling the
calibration pairs: appends this example's label slice to `y` and, for every
key, its row slice to `X[key]`. -/
def calib_fold_step {G : Type} (ds : DatasetI G)
    (num_last : List String → String → Nat) (acts : ProbePoint → List Tensor3)
    (keys : List ProbePoint)
    (st : (ProbePoint → List (List (List Val))) × List (List Nat)) (p : Nat × G) :
    Except String ((ProbePoint → List (List (List Val))) × List (List Nat)) := do
  let (tokens, start_idx, end_idx) ← calib_bounds ds num_last p.2
  pure (append_for_keys keys st.1 (fun key => calib_X_entry acts key p.1 start_idx end_idx),
        st.2 ++ [calib_y_entry tokens start_idx end_idx])

/-- Final stage of `calculate_tuned_lens`: concatenate each key's row blocks
(`torch.cat`) and the label blocks (`np.concatenate`), then per key fit
`LinearClsProbe(fit_intercept=False)` and store the transposed weight matrix
(`.detach`/`.cpu`/`.numpy`/`.astype`/`.to(device)` are value-preserving and
dropped).  The probe itself is `graphcot/probing.py`, repo code outside
`src/`; `probe_fit` abstracts it, modelled from the spec (§6 Linear Probe:
`fit(X, y)` exposing a fitted weight matrix, here in vocab × hidden
orientation so that the stored lens is its transpose in hidden × vocab
orientation), with the `fit_intercept` flag as its first argument. -/
def fit_translators (probe_fit : Bool → List (List Val) → List Nat → List (List Val))
    (keys : List ProbePoint) (X : ProbePoint → List (List (List Val)))
    (y : List (List Nat)) : Except String (List (ProbePoint × List (List Val))) := do
  let Xc ← keys.mapM (fun k => do
    let t ← torch_cat (X k)
    pure (k, t))
  let yc ← np_concatenate y
  pure (Xc.map (fun kt => (kt.1, transposeMat (probe_fit false kt.2 yc))))

/-- Embeds `calculate_tuned_lens(model, dataset)` from the source.  The aggregation
externals are abstract parameters as in `aggregate_activations`; `n_layers`
is the model configuration; the probe accuracy `print` diagnostic is a sink
and dropped.  Returns the `translators` dictionary as an association list. -/
def calculate_tuned_lens {G : Type} (generate_example : Nat → G)
    (is_model_correct : G → Bool) (gec : G → List String × CacheT)
    (cpu : Tensor3 → Tensor3) (num_last : List String → String → Nat)
    (probe_fit : Bool → List (List Val) → List Nat → List (List Val))
    (n_layers : Nat) (ds : DatasetI G) :
    Except String (List (ProbePoint × List (List Val))) := do
  let keys := (List.range' 1 (n_layers - 1)).map ProbePoint.lnNormalized ++
    [ProbePoint.lnFinalNormalized]
  let acts := (aggregate_activations generate_example is_model_correct gec cpu
    keys 16384).1
  let graphs := (aggregate_activations generate_example is_model_correct gec cpu
    keys 16384).2
  let st ← graphs.enum.foldlM (calib_fold_step ds num_last acts keys)
    (fun _ => [], [])
  fit_translators probe_fit keys st.1 st.2

/-- Concrete dataset used by witnesses. -/
def dsW : DatasetI Nat where
  tokenize := fun _ => [0, 1]
  start_token := 0
  idx2tokens := fun _ => "t"
  tokens2idx := fun _ => 0

/-- Concrete lens model; its forward logits are nonempty. -/
def lensM1 : ModelL := ⟨1, [[1]], fun _ => ([[1]], fun _ => [[[1]]])⟩

/-- Concrete lens model with the same configuration and cache as `lensM1`
but different forward logits. -/
def lensM2 : ModelL := ⟨1, [[1]], fun _ => ([], fun _ => [[[1]]])⟩

/-- Concrete dataset for the C6 witness: start marker at index 1. -/
def dsW6 : DatasetI Nat where
  tokenize := fun _ => [9, 5, 7, 7, 3]
  start_token := 5
  idx2tokens := fun _ => "t"
  tokens2idx := fun _ => 0

/-- Concrete activation store for the C6 witness. -/
def actsW6 : ProbePoint → List Tensor3 := fun _ => [[[[0], [0], [0]]]]

/-- Concrete probe fit used by the C7 witness (weight matrix 1 × 2). -/
def probeFitW : Bool → List (List Val) → List Nat → List (List Val) :=
  fun _ _ _ => [[1, 2]]

/-- Concrete per-key row blocks used by the C7 witness. -/
def XW : ProbePoint → List (List (List Val)) := fun _ => [[[1, 0], [0, 1]]]

/-- C1: for every layer `L` and position `P` scanned by the patching engine,
the stored score is `(patchedDiff - corruptedDiff)` divided by
`(cleanDiff - corruptedDiff)` with the denominator replaced by `1` when it is
exactly zero; the substituted denominator is never zero (no division-by-zero
error can reach the caller), and in the degenerate case the score reduces to
the raw difference `patchedDiff - corruptedDiff`. -/
theorem patching_score_normalization (m : ModelP)
    (clean_tokens corrupted_tokens : List Nat) (comparison_index L P : Nat)
    (hL : L < m.n_layers) (hP : P < clean_tokens.length) :
    activation_patching m clean_tokens corrupted_tokens comparison_index L P =
      (patchedLogitDiff m clean_tokens corrupted_tokens comparison_index L P -
        corruptedLogitDiff m clean_tokens corrupted_tokens comparison_index) /
      (if cleanLogitDiff m clean_tokens corrupted_tokens comparison_index -
            corruptedLogitDiff m clean_tokens corrupted_tokens comparison_index = 0 then 1
        else cleanLogitDiff m clean_tokens corrupted_tokens comparison_index -
            corruptedLogitDiff m clean_tokens corrupted_tokens comparison_index)
    ∧ (if cleanLogitDiff m clean_tokens corrupted_tokens comparison_index -
            corruptedLogitDiff m clean_tokens corrupted_tokens comparison_index = 0 then (1 : Val)
        else cleanLogitDiff m clean_tokens corrupted_tokens comparison_index -
            corruptedLogitDiff m clean_tokens corrupted_tokens comparison_index) ≠ 0
    ∧ (cleanLogitDiff m clean_tokens corrupted_tokens comparison_index -
          corruptedLogitDiff m clean_tokens corrupted_tokens comparison_index = 0 →
        activation_patching m clean_tokens corrupted_tokens comparison_index L P =
          patchedLogitDiff m clean_tokens corrupted_tokens comparison_index L P -
            corruptedLogitDiff m clean_tokens corrupted_tokens comparison_index) := by
  refine ⟨?_, ?_, ?_⟩
  · simp only [activation_patching, cleanLogitDiff, corruptedLogitDiff, patchedLogitDiff,
      patch_hooks]
    rw [if_pos ⟨hL, hP⟩]
  · by_cases hz : cleanLogitDiff m clean_tokens corrupted_tokens comparison_index -
        corruptedLogitDiff m clean_tokens corrupted_tokens comparison_index = 0
    · rw [if_pos hz]; exact one_ne_zero
    · rw [if_neg hz]; exact hz
  · intro hz
    simp only [activation_patching, cleanLogitDiff, corruptedLogitDiff, patchedLogitDiff,
      patch_hooks] at hz ⊢
    rw [if_pos ⟨hL, hP⟩, if_pos hz, div_one]

/-- Witness for C1 at a concrete model, token pair and cell. -/
theorem patching_score_normalization_witness :
    (1 < modelW.n_layers ∧ 1 < ([0, 1, 2] : List Nat).length) ∧
    (activation_patching modelW [0, 1, 2] [0, 2, 2] 2 1 1 =
      (patchedLogitDiff modelW [0, 1, 2] [0, 2, 2] 2 1 1 -
        corruptedLogitDiff modelW [0, 1, 2] [0, 2, 2] 2) /
      (if cleanLogitDiff modelW [0, 1, 2] [0, 2, 2] 2 -
            corruptedLogitDiff modelW [0, 1, 2] [0, 2, 2] 2 = 0 then 1
        else cleanLogitDiff modelW [0, 1, 2] [0, 2, 2] 2 -
            corruptedLogitDiff modelW [0, 1, 2] [0, 2, 2] 2)
    ∧ (if cleanLogitDiff modelW [0, 1, 2] [0, 2, 2] 2 -
            corruptedLogitDiff modelW [0, 1, 2] [0, 2, 2] 2 = 0 then (1 : Val)
        else cleanLogitDiff modelW [0, 1, 2] [0, 2, 2] 2 -
            corruptedLogitDiff modelW [0, 1, 2] [0, 2, 2] 2) ≠ 0
    ∧ (cleanLogitDiff modelW [0, 1, 2] [0, 2, 2] 2 -
          corruptedLogitDiff modelW [0, 1, 2] [0, 2, 2] 2 = 0 →
        activation_patching modelW [0, 1, 2] [0, 2, 2] 2 1 1 =
          patchedLogitDiff modelW [0, 1, 2] [0, 2, 2] 2 1 1 -
            corruptedLogitDiff modelW [0, 1, 2] [0, 2, 2] 2)) :=
  ⟨⟨by decide, by decide⟩,
    patching_score_normalization modelW [0, 1, 2] [0, 2, 2] 2 1 1 (by decide) (by decide)⟩

/-- C2: for equal-length token sequences and a valid comparison position, the
baseline metric is the difference of the logits at position
`comparison_index - 1` between the clean sequence's token and the corrupted
sequence's token at `comparison_index`. -/
theorem logit_diff_reads_comparison_tokens (clean_tokens corrupted_tokens : List Nat)
    (logits : LogitsP) (comparison_index : Nat)
    (hlen : clean_tokens.length = corrupted_tokens.length)
    (h1 : 1 ≤ comparison_index) (hc : comparison_index < clean_tokens.length) :
    logits_to_logit_diff clean_tokens corrupted_tokens logits comparison_index =
      logits 0 (comparison_index - 1) (clean_tokens.get ⟨comparison_index, hc⟩) -
        logits 0 (comparison_index - 1) (corrupted_tokens.get ⟨comparison_index, hlen ▸ hc⟩) := by
  simp only [logits_to_logit_diff, List.getD_eq_getElem?_getD, List.getElem?_eq_getElem hc,
    List.getElem?_eq_getElem (hlen ▸ hc), Option.getD_some, List.get_eq_getElem]

/-- Witness for C2 at concrete sequences and logits. -/
theorem logit_diff_reads_comparison_tokens_witness :
    (([3, 4, 5] : List Nat).length = ([3, 7, 5] : List Nat).length ∧
      1 ≤ 1 ∧ 1 < ([3, 4, 5] : List Nat).length) ∧
    logits_to_logit_diff [3, 4, 5] [3, 7, 5] (fun _ p t => (p : Val) + t) 1 =
      (fun _ p t => (p : Val) + t) 0 0 (([3, 4, 5] : List Nat).get ⟨1, by decide⟩) -
        (fun _ p t => (p : Val) + t) 0 0 (([3, 7, 5] : List Nat).get ⟨1, by decide⟩) :=
  ⟨⟨by decide, by decide, by decide⟩,
    logit_diff_reads_comparison_tokens [3, 4, 5] [3, 7, 5] (fun _ p t => (p : Val) + t) 1
      (by decide) (by decide) (by decide)⟩

/-- C3: the `(L, P)` iteration of the patching scan runs the corrupted
sequence with exactly one hook, bound to the `resid_pre` probe point of layer
`L`; that hook leaves every other probe point untouched, overwrites position
`P` (all batch rows and hidden dimensions) with the clean cache's value at the
same probe point and position, and leaves the activation at every other
position unchanged. -/
theorem patching_iteration_single_hook (m : ModelP)
    (clean_tokens corrupted_tokens : List Nat) (comparison_index L P : Nat)
    (hL : L < m.n_layers) (hP : P < clean_tokens.length) :
    (patch_hooks m clean_tokens L P).length = 1
    ∧ activation_patching m clean_tokens corrupted_tokens comparison_index L P =
        (logits_to_logit_diff clean_tokens corrupted_tokens
            (run_with_hooks m corrupted_tokens (patch_hooks m clean_tokens L P))
            comparison_index -
          corruptedLogitDiff m clean_tokens corrupted_tokens comparison_index) /
        (if cleanLogitDiff m clean_tokens corrupted_tokens comparison_index -
              corruptedLogitDiff m clean_tokens corrupted_tokens comparison_index = 0 then 1
          else cleanLogitDiff m clean_tokens corrupted_tokens comparison_index -
              corruptedLogitDiff m clean_tokens corrupted_tokens comparison_index)
    ∧ (∀ pp a, pp ≠ ProbePoint.residPre L →
        applyHooks (patch_hooks m clean_tokens L P) pp a = a)
    ∧ (∀ a b d,
        applyHooks (patch_hooks m clean_tokens L P) (ProbePoint.residPre L) a b P d =
          (run_with_cache m clean_tokens).2 (ProbePoint.residPre L) b P d)
    ∧ (∀ a b p d, p ≠ P →
        applyHooks (patch_hooks m clean_tokens L P) (ProbePoint.residPre L) a b p d =
          a b p d) := by
  refine ⟨rfl, ?_, ?_, ?_, ?_⟩
  · simp only [activation_patching, cleanLogitDiff, corruptedLogitDiff, patch_hooks]
    rw [if_pos ⟨hL, hP⟩]
  · intro pp a hpp
    simp only [applyHooks, patch_hooks, List.foldl_cons, List.foldl_nil]
    rw [if_neg (fun h => hpp h.symm)]
  · intro a b d
    simp [applyHooks, patch_hooks, residual_stream_patching_hook]
  · intro a b p d hp
    simp [applyHooks, patch_hooks, residual_stream_patching_hook, hp]

/-- Witness for C3 at a concrete model, token pair and cell. -/
theorem patching_iteration_single_hook_witness :
    (1 < modelW.n_layers ∧ 1 < ([0, 1, 2] : List Nat).length) ∧
    ((patch_hooks modelW [0, 1, 2] 1 1).length = 1
    ∧ activation_patching modelW [0, 1, 2] [0, 2, 2] 2 1 1 =
        (logits_to_logit_diff [0, 1, 2] [0, 2, 2]
            (run_with_hooks modelW [0, 2, 2] (patch_hooks modelW [0, 1, 2] 1 1)) 2 -
          corruptedLogitDiff modelW [0, 1, 2] [0, 2, 2] 2) /
        (if cleanLogitDiff modelW [0, 1, 2] [0, 2, 2] 2 -
              corruptedLogitDiff modelW [0, 1, 2] [0, 2, 2] 2 = 0 then 1
          else cleanLogitDiff modelW [0, 1, 2] [0, 2, 2] 2 -
              corruptedLogitDiff modelW [0, 1, 2] [0, 2, 2] 2)
    ∧ (∀ pp a, pp ≠ ProbePoint.residPre 1 →
        applyHooks (patch_hooks modelW [0, 1, 2] 1 1) pp a = a)
    ∧ (∀ a b d,
        applyHooks (patch_hooks modelW [0, 1, 2] 1 1) (ProbePoint.residPre 1) a b 1 d =
          (run_with_cache modelW [0, 1, 2]).2 (ProbePoint.residPre 1) b 1 d)
    ∧ (∀ a b p d, p ≠ 1 →
        applyHooks (patch_hooks modelW [0, 1, 2] 1 1) (ProbePoint.residPre 1) a b p d =
          a b p d)) :=
  ⟨⟨by decide, by decide⟩,
    patching_iteration_single_hook modelW [0, 1, 2] [0, 2, 2] 2 1 1 (by decide) (by decide)⟩

/-- Patching the run's own cached `resid_pre` values back into it leaves the
residual stream unchanged at every depth. -/
theorem residStream_self_patch (m : ModelP) (tokens : List Nat) (L P : Nat) :
    ∀ K, residStream m (patch_hooks m tokens L P) tokens K =
      residStream m [] tokens K := by
  intro K
  induction K with
  | zero => rfl
  | succ k ih =>
    simp only [residStream]
    rw [ih]
    have hhook : applyHooks (patch_hooks m tokens L P) (ProbePoint.residPre k)
        (residStream m [] tokens k) = residStream m [] tokens k := by
      by_cases hkL : ProbePoint.residPre L = ProbePoint.residPre k
      · have hk : k = L := by
          cases hkL; rfl
        subst hk
        funext b p d
        show (if ProbePoint.residPre k = ProbePoint.residPre k then
            residual_stream_patching_hook (run_with_cache m tokens).2 P
              (residStream m [] tokens k) (ProbePoint.residPre k)
          else residStream m [] tokens k) b p d = residStream m [] tokens k b p d
        rw [if_pos rfl]
        show (if p = P then (run_with_cache m tokens).2 (ProbePoint.residPre k) b p d
          else residStream m [] tokens k b p d) = residStream m [] tokens k b p d
        by_cases hp : p = P
        · rw [if_pos hp]
          rfl
        · rw [if_neg hp]
      · simp only [applyHooks, patch_hooks, List.foldl_cons, List.foldl_nil]
        rw [if_neg hkL]
    rw [hhook]
    rfl

/-- The baseline metric of a pair whose clean and corrupted sequences
coincide is zero: both directions read the same token. -/
theorem logit_diff_self (tokens : List Nat) (logits : LogitsP) (c : Nat) :
    logits_to_logit_diff tokens tokens logits c = 0 := by
  simp [logits_to_logit_diff]

/-- C5: when the clean and corrupted token sequences are identical, every
patched forward pass of the scan produces exactly the logits of the unpatched
corrupted pass (patching has no observable effect), the degenerate
denominator path is taken (`cleanDiff - corruptedDiff = 0`), and the
substituted denominator equals `1`, hence is nonzero: every cell's score is
well-defined. -/
theorem identical_pair_patching_no_effect (m : ModelP)
    (clean_tokens corrupted_tokens : List Nat) (comparison_index : Nat)
    (h : clean_tokens = corrupted_tokens) :
    (∀ L P, run_with_hooks m corrupted_tokens (patch_hooks m clean_tokens L P) =
        forwardP m corrupted_tokens)
    ∧ cleanLogitDiff m clean_tokens corrupted_tokens comparison_index -
        corruptedLogitDiff m clean_tokens corrupted_tokens comparison_index = 0
    ∧ (if cleanLogitDiff m clean_tokens corrupted_tokens comparison_index -
          corruptedLogitDiff m clean_tokens corrupted_tokens comparison_index = 0 then (1 : Val)
        else cleanLogitDiff m clean_tokens corrupted_tokens comparison_index -
          corruptedLogitDiff m clean_tokens corrupted_tokens comparison_index) = 1
    ∧ (if cleanLogitDiff m clean_tokens corrupted_tokens comparison_index -
          corruptedLogitDiff m clean_tokens corrupted_tokens comparison_index = 0 then (1 : Val)
        else cleanLogitDiff m clean_tokens corrupted_tokens comparison_index -
          corruptedLogitDiff m clean_tokens corrupted_tokens comparison_index) ≠ 0 := by
  subst h
  have hdiff : cleanLogitDiff m clean_tokens clean_tokens comparison_index -
      corruptedLogitDiff m clean_tokens clean_tokens comparison_index = 0 := by
    simp [cleanLogitDiff, corruptedLogitDiff, run_with_cache, logit_diff_self]
  refine ⟨?_, hdiff, ?_, ?_⟩
  · intro L P
    simp only [run_with_hooks, forwardP]
    rw [residStream_self_patch m clean_tokens L P m.n_layers]
  · rw [if_pos hdiff]
  · rw [if_pos hdiff]
    exact one_ne_zero

/-- Witness for C5 on a concrete model with literally identical sequences. -/
theorem identical_pair_patching_no_effect_witness :
    (([0, 1, 2] : List Nat) = ([0, 1, 2] : List Nat)) ∧
    ((∀ L P, run_with_hooks modelW [0, 1, 2] (patch_hooks modelW [0, 1, 2] L P) =
        forwardP modelW [0, 1, 2])
    ∧ cleanLogitDiff modelW [0, 1, 2] [0, 1, 2] 2 -
        corruptedLogitDiff modelW [0, 1, 2] [0, 1, 2] 2 = 0
    ∧ (if cleanLogitDiff modelW [0, 1, 2] [0, 1, 2] 2 -
          corruptedLogitDiff modelW [0, 1, 2] [0, 1, 2] 2 = 0 then (1 : Val)
        else cleanLogitDiff modelW [0, 1, 2] [0, 1, 2] 2 -
          corruptedLogitDiff modelW [0, 1, 2] [0, 1, 2] 2) = 1
    ∧ (if cleanLogitDiff modelW [0, 1, 2] [0, 1, 2] 2 -
          corruptedLogitDiff modelW [0, 1, 2] [0, 1, 2] 2 = 0 then (1 : Val)
        else cleanLogitDiff modelW [0, 1, 2] [0, 1, 2] 2 -
          corruptedLogitDiff modelW [0, 1, 2] [0, 1, 2] 2) ≠ 0) :=
  ⟨rfl, identical_pair_patching_no_effect modelW [0, 1, 2] [0, 1, 2] 2 rfl⟩

/-- Appending once for each key of a duplicate-free key list appends exactly
one element at each listed key and nothing elsewhere. -/
theorem append_for_keys_apply {T : Type} (keys : List ProbePoint)
    (m : ProbePoint → List T) (v : ProbePoint → T) (k : ProbePoint)
    (hnd : keys.Nodup) :
    append_for_keys keys m v k = if k ∈ keys then m k ++ [v k] else m k := by
  induction keys generalizing m with
  | nil => simp [append_for_keys]
  | cons key keys ih =>
    have hkey : key ∉ keys := (List.nodup_cons.mp hnd).1
    have hnd' : keys.Nodup := (List.nodup_cons.mp hnd).2
    show append_for_keys keys (fun j => if j = key then m j ++ [v key] else m j) v k = _
    rw [ih _ hnd']
    by_cases hk : k ∈ keys
    · have hne : k ≠ key := fun h => hkey (h ▸ hk)
      simp [hk, hne]
    · by_cases hke : k = key
      · subst hke
        simp [hk]
      · simp [hk, hke]

/-- The accepted-instance list accumulated by the sampling loop is the
correctness-filtered attempt list. -/
theorem aggregate_graphs_eq_filter {G : Type} (is_model_correct : G → Bool)
    (get_example_cache : G → List String × CacheT) (cpu : Tensor3 → Tensor3)
    (activation_keys : List ProbePoint) :
    ∀ (gs : List G) (st : (ProbePoint → List Tensor3) × List G),
      (gs.foldl (aggregate_step is_model_correct get_example_cache cpu activation_keys)
        st).2 = st.2 ++ gs.filter (fun g => is_model_correct g) := by
  intro gs
  induction gs with
  | nil => intro st; simp
  | cons g gs ih =>
    intro st
    by_cases hg : is_model_correct g = true
    · simp only [List.foldl_cons, aggregate_step, if_pos hg, List.filter_cons, hg, if_true]
      rw [ih]
      simp
    · simp only [List.foldl_cons, aggregate_step, if_neg hg, List.filter_cons, hg]
      rw [ih]
      simp [hg]

/-- Invariant of the sampling loop: at every requested key the accumulated
tensor list is the image of the accepted-instance list under
`cpu (cache[key])`. -/
theorem aggregate_cache_eq_map {G : Type} (is_model_correct : G → Bool)
    (get_example_cache : G → List String × CacheT) (cpu : Tensor3 → Tensor3)
    (activation_keys : List ProbePoint) (hnd : activation_keys.Nodup) :
    ∀ (gs : List G) (st : (ProbePoint → List Tensor3) × List G),
      (∀ k ∈ activation_keys,
        st.1 k = st.2.map (fun g => cpu ((get_example_cache g).2 k))) →
      ∀ k ∈ activation_keys,
        (gs.foldl (aggregate_step is_model_correct get_example_cache cpu activation_keys)
          st).1 k =
        ((gs.foldl (aggregate_step is_model_correct get_example_cache cpu activation_keys)
          st).2).map (fun g => cpu ((get_example_cache g).2 k)) := by
  intro gs
  induction gs with
  | nil => intro st h k hk; exact h k hk
  | cons g gs ih =>
    intro st h k hk
    by_cases hg : is_model_correct g = true
    · simp only [List.foldl_cons]
      refine ih (aggregate_step is_model_correct get_example_cache cpu activation_keys st g)
        ?_ k hk
      intro k' hk'
      simp only [aggregate_step, if_pos hg]
      rw [append_for_keys_apply activation_keys st.1 _ k' hnd, if_pos hk', h k' hk']
      simp
    · simp only [List.foldl_cons, aggregate_step, if_neg hg]
      exact ih st h k hk

/-- C8: every instance in the aggregator's output was judged correct by the
oracle, and the output is parallel: at every requested probe point the
accumulated tensor list is the image, in order, of the accepted-instance
list, so the i-th tensor comes from the i-th accepted instance and the
lengths agree. -/
theorem aggregate_correct_only_and_parallel {G : Type} (generate_example : Nat → G)
    (is_model_correct : G → Bool) (get_example_cache : G → List String × CacheT)
    (cpu : Tensor3 → Tensor3) (activation_keys : List ProbePoint) (n_samples : Nat)
    (hnd : activation_keys.Nodup) :
    (∀ g ∈ (aggregate_activations generate_example is_model_correct get_example_cache cpu
        activation_keys n_samples).2, is_model_correct g = true)
    ∧ ∀ k ∈ activation_keys,
        ((aggregate_activations generate_example is_model_correct get_example_cache cpu
            activation_keys n_samples).1 k).length =
          ((aggregate_activations generate_example is_model_correct get_example_cache cpu
            activation_keys n_samples).2).length
        ∧ (aggregate_activations generate_example is_model_correct get_example_cache cpu
            activation_keys n_samples).1 k =
          ((aggregate_activations generate_example is_model_correct get_example_cache cpu
            activation_keys n_samples).2).map (fun g => cpu ((get_example_cache g).2 k)) := by
  constructor
  · intro g hg
    rw [aggregate_activations, aggregate_graphs_eq_filter] at hg
    simp only [List.nil_append] at hg
    exact (List.mem_filter.mp hg).2
  · intro k hk
    have hmap := aggregate_cache_eq_map is_model_correct get_example_cache cpu
      activation_keys hnd ((List.range n_samples).map generate_example)
      (fun _ => [], []) (by intro k' _; rfl) k hk
    refine ⟨?_, hmap⟩
    rw [aggregate_activations]
    rw [hmap]
    simp

/-- Witness for C8 on concrete data with a rejecting oracle on odd graphs. -/
theorem aggregate_correct_only_and_parallel_witness :
    ([ProbePoint.lnFinalNormalized] : List ProbePoint).Nodup ∧
    ((∀ g ∈ (aggregate_activations (fun i => i) oracleW gecW (fun t => t)
        [ProbePoint.lnFinalNormalized] 4).2, oracleW g = true)
    ∧ ∀ k ∈ ([ProbePoint.lnFinalNormalized] : List ProbePoint),
        ((aggregate_activations (fun i => i) oracleW gecW (fun t => t)
            [ProbePoint.lnFinalNormalized] 4).1 k).length =
          ((aggregate_activations (fun i => i) oracleW gecW (fun t => t)
            [ProbePoint.lnFinalNormalized] 4).2).length
        ∧ (aggregate_activations (fun i => i) oracleW gecW (fun t => t)
            [ProbePoint.lnFinalNormalized] 4).1 k =
          ((aggregate_activations (fun i => i) oracleW gecW (fun t => t)
            [ProbePoint.lnFinalNormalized] 4).2).map
              (fun g => (fun t => t) ((gecW g).2 k))) :=
  ⟨List.nodup_singleton _,
    aggregate_correct_only_and_parallel (fun i => i) oracleW gecW (fun t => t)
      [ProbePoint.lnFinalNormalized] 4 (List.nodup_singleton _)⟩

/-- Accepted and rejected elements of a Boolean filter partition the list. -/
theorem filter_length_add {α : Type} (p : α → Bool) :
    ∀ l : List α,
      (l.filter (fun a => p a)).length + (l.filter (fun a => !p a)).length = l.length := by
  intro l
  induction l with
  | nil => rfl
  | cons a l ih =>
    simp only [List.filter_cons]
    by_cases ha : p a = true
    · simp [ha]
      omega
    · have ha' : p a = false := by
        cases hpa : p a
        · rfl
        · exact absurd hpa ha
      simp [ha']
      omega

/-- C9: the sampling loop makes exactly `n_samples` generation attempts; the
accepted-instance list is the correctness-filtered attempt list, incorrect
attempts are skipped but still consume an attempt (accepted + rejected =
`n_samples`), so at most `n_samples` instances are returned. -/
theorem aggregate_attempts_exactly_n_samples {G : Type} (generate_example : Nat → G)
    (is_model_correct : G → Bool) (get_example_cache : G → List String × CacheT)
    (cpu : Tensor3 → Tensor3) (activation_keys : List ProbePoint) (n_samples : Nat) :
    ((List.range n_samples).map generate_example).length = n_samples
    ∧ (aggregate_activations generate_example is_model_correct get_example_cache cpu
        activation_keys n_samples).2 =
      ((List.range n_samples).map generate_example).filter (fun g => is_model_correct g)
    ∧ ((aggregate_activations generate_example is_model_correct get_example_cache cpu
          activation_keys n_samples).2).length +
        (((List.range n_samples).map generate_example).filter
          (fun g => !is_model_correct g)).length = n_samples
    ∧ ((aggregate_activations generate_example is_model_correct get_example_cache cpu
        activation_keys n_samples).2).length ≤ n_samples := by
  have hgraphs : (aggregate_activations generate_example is_model_correct get_example_cache
      cpu activation_keys n_samples).2 =
      ((List.range n_samples).map generate_example).filter (fun g => is_model_correct g) := by
    rw [aggregate_activations, aggregate_graphs_eq_filter]
    simp
  have hlen : ((List.range n_samples).map generate_example).length = n_samples := by simp
  refine ⟨hlen, hgraphs, ?_, ?_⟩
  · rw [hgraphs]
    have h := filter_length_add is_model_correct ((List.range n_samples).map generate_example)
    omega
  · rw [hgraphs]
    calc (((List.range n_samples).map generate_example).filter
          (fun g => is_model_correct g)).length
        ≤ ((List.range n_samples).map generate_example).length :=
          List.length_filter_le _ _
      _ = n_samples := hlen

/-- C4: lens decoding in argmax mode and probability mode is a pure function
of the example's activation cache and the supplied lens matrices (plus the
static model configuration and shared unembedding): two models that agree on
`n_layers`, `W_U` and on the cache produced for the example — even if their
forward logits differ arbitrarily — decode identically, so the decoder never
re-runs the model, and the cache (a value in this embedding) is only read. -/
theorem lens_decoding_pure_in_cache_and_lenses {G : Type}
    (num_last : List String → String → Nat) (e : Val → Val) (pred : G)
    (ds : DatasetI G) (lenses : Option (ProbePoint → List (List Val)))
    (position : Nat) (m₁ m₂ : ModelL)
    (hn : m₁.n_layers = m₂.n_layers) (hW : m₁.W_U = m₂.W_U)
    (hc : (m₁.run_with_cache (ds.tokenize pred)).2 =
      (m₂.run_with_cache (ds.tokenize pred)).2) :
    logit_lens num_last pred m₁ ds lenses = logit_lens num_last pred m₂ ds lenses
    ∧ logit_lens_correct_probs e pred m₁ ds position lenses =
        logit_lens_correct_probs e pred m₂ ds position lenses := by
  constructor
  · simp only [logit_lens, get_example_cache, lens_matrix, hn, hW, hc]
  · simp only [logit_lens_correct_probs, get_example_cache, lens_matrix, hn, hW, hc]

/-- Witness for C4: two models agreeing on configuration and cache but with
different forward logits decode identically in both modes. -/
theorem lens_decoding_pure_in_cache_and_lenses_witness :
    (lensM1.n_layers = lensM2.n_layers ∧ lensM1.W_U = lensM2.W_U ∧
      (lensM1.run_with_cache (dsW.tokenize 0)).2 =
        (lensM2.run_with_cache (dsW.tokenize 0)).2) ∧
    (logit_lens (fun _ _ => 2) 0 lensM1 dsW none =
        logit_lens (fun _ _ => 2) 0 lensM2 dsW none
    ∧ logit_lens_correct_probs (fun x => x) 0 lensM1 dsW 0 none =
        logit_lens_correct_probs (fun x => x) 0 lensM2 dsW 0 none) :=
  ⟨⟨rfl, rfl, rfl⟩,
    lens_decoding_pure_in_cache_and_lenses (fun _ _ => 2) (fun x => x) 0 dsW none 0
      lensM1 lensM2 rfl rfl rfl⟩

/-- Characterisation of a successful `Except` bind. -/
theorem except_bind_ok {ε α β : Type} (x : Except ε α) (f : α → Except ε β) (b : β) :
    (x >>= f) = Except.ok b ↔ ∃ a, x = Except.ok a ∧ f a = Except.ok b := by
  cases x with
  | error e =>
    constructor
    · intro h
      exact Except.noConfusion h
    · rintro ⟨a, ha, _⟩
      exact Except.noConfusion ha
  | ok a =>
    constructor
    · intro h
      exact ⟨a, rfl, h⟩
    · rintro ⟨a1, ha, hf⟩
      injection ha with ha
      subst ha
      exact hf

/-- C10: if the aggregation for tuned-lens calibration accepts zero instances
(the model answers every sampled instance incorrectly), the lens lists stay
empty and the concatenation stage raises, so `calculate_tuned_lens` fails
with an exception instead of returning lens matrices. -/
theorem calibration_errors_on_zero_accepted {G : Type} (generate_example : Nat → G)
    (is_model_correct : G → Bool) (gec : G → List String × CacheT)
    (cpu : Tensor3 → Tensor3) (num_last : List String → String → Nat)
    (probe_fit : Bool → List (List Val) → List Nat → List (List Val))
    (n_layers : Nat) (ds : DatasetI G)
    (h : ∀ i, is_model_correct (generate_example i) = false) :
    calculate_tuned_lens generate_example is_model_correct gec cpu num_last probe_fit
      n_layers ds =
    Except.error "torch.cat expected a non-empty list of Tensors" := by
  have hkeys : ∀ (keys : List ProbePoint),
      (aggregate_activations generate_example is_model_correct gec cpu keys 16384).2 =
        [] := by
    intro keys
    rw [aggregate_activations, aggregate_graphs_eq_filter]
    simp only [List.nil_append]
    apply List.filter_eq_nil_iff.mpr
    intro g hg
    obtain ⟨i, hi, rfl⟩ := List.mem_map.mp hg
    simp [h i]
  simp only [calculate_tuned_lens]
  rw [hkeys]
  simp only [List.enum_nil, List.foldlM_nil, pure_bind]
  cases hc : (List.range' 1 (n_layers - 1)).map ProbePoint.lnNormalized with
  | nil => rfl
  | cons a l => rfl

/-- Witness for C10: an oracle that rejects everything forces the error. -/
theorem calibration_errors_on_zero_accepted_witness :
    (∀ i : Nat, (fun _ : Nat => false) (i : Nat) = false) ∧
    calculate_tuned_lens (fun i => i) (fun _ => false) gecW (fun t => t)
      (fun _ _ => 0) (fun _ _ _ => []) 2 dsW =
    Except.error "torch.cat expected a non-empty list of Tensors" :=
  ⟨fun _ => rfl,
    calibration_errors_on_zero_accepted (fun i => i) (fun _ => false) gecW (fun t => t)
      (fun _ _ => 0) (fun _ _ _ => []) 2 dsW (fun _ => rfl)⟩

/-- On in-range nonnegative bounds, the Python slice is plain take-then-drop. -/
theorem pySlice_nat_eq {α : Type} (l : List α) (a b : Nat) (hab : a ≤ b)
    (hb : b ≤ l.length) : pySlice l (a : Int) (b : Int) = (l.take b).drop a := by
  simp only [pySlice]
  rw [if_neg (by omega), if_neg (by omega)]
  have h1 : (min (a : Int) ((l.length : Nat) : Int)).toNat = a := by omega
  have h2 : (min (b : Int) ((l.length : Nat) : Int)).toNat = b := by omega
  rw [h1, h2]

/-- Length of an in-range Python slice. -/
theorem pySlice_nat_length {α : Type} (l : List α) (a b : Nat) (hab : a ≤ b)
    (hb : b ≤ l.length) : (pySlice l (a : Int) (b : Int)).length = b - a := by
  rw [pySlice_nat_eq l a b hab hb]
  rw [List.length_drop, List.length_take]
  omega

/-- Elements of an in-range Python slice. -/
theorem pySlice_nat_getD {α : Type} (l : List α) (a b j : Nat) (d : α) (hab : a ≤ b)
    (hb : b ≤ l.length) (hj : j < b - a) :
    (pySlice l (a : Int) (b : Int)).getD j d = l.getD (a + j) d := by
  rw [pySlice_nat_eq l a b hab hb]
  rw [List.getD_eq_getElem?_getD, List.getD_eq_getElem?_getD]
  rw [List.getElem?_drop]
  rw [List.getElem?_take_of_lt (by omega)]

/-- A successful `.item()` pins down the unique matching index. -/
theorem npWhereItem_ok_inv (tokens : List Nat) (t wi : Nat)
    (h : npWhereItem tokens t = Except.ok wi) :
    wi < tokens.length ∧ tokens.getD wi 0 = t := by
  unfold npWhereItem at h
  cases hf : (List.range tokens.length).filter (fun i => tokens.getD i 0 = t) with
  | nil => rw [hf] at h; exact Except.noConfusion h
  | cons x xs =>
    cases xs with
    | nil =>
      rw [hf] at h
      injection h with h
      subst h
      have hmem : x ∈ (List.range tokens.length).filter (fun i => tokens.getD i 0 = t) := by
        rw [hf]
        exact List.mem_singleton.mpr rfl
      have hsplit := List.mem_filter.mp hmem
      exact ⟨List.mem_range.mp hsplit.1, of_decide_eq_true hsplit.2⟩
    | cons y ys => rw [hf] at h; exact Except.noConfusion h

/-- What a successful `calib_bounds` run returns: the truncated token list,
a start index two to the right of the unique start-marker occurrence, and
the `num_last` answer-span end over the labels. -/
theorem calib_bounds_ok_inv {G : Type} (ds : DatasetI G)
    (num_last : List String → String → Nat) (g : G) (tokens : List Nat) (s e : Nat)
    (hb : calib_bounds ds num_last g = Except.ok (tokens, s, e)) :
    tokens = (ds.tokenize g).dropLast ∧ 2 ≤ s ∧ s - 2 < tokens.length ∧
    tokens.getD (s - 2) 0 = ds.start_token ∧
    e = num_last (tokens.map ds.idx2tokens) "," := by
  simp only [calib_bounds] at hb
  rw [except_bind_ok] at hb
  obtain ⟨wi, hw, hp⟩ := hb
  injection hp with hp
  rw [Prod.mk.injEq, Prod.mk.injEq] at hp
  obtain ⟨h1, h2, h3⟩ := hp
  have hinv := npWhereItem_ok_inv _ _ _ hw
  subst h1
  refine ⟨rfl, by omega, ?_, ?_, h3.symm⟩
  · have : s - 2 = wi := by omega
    rw [this]
    exact hinv.1
  · have : s - 2 = wi := by omega
    rw [this]
    exact hinv.2

/-- C6: for an accepted example with computed bounds, the rows sliced into
the calibration dataset and the labels sliced into `y` are aligned one-to-one
in order: the `j`-th row is the residual-stream vector at position
`p = start_idx - 1 + j`, which lies strictly between the start marker
(position `start_idx - 2`, holding the start token) and the answer-span end
`end_idx`, and the `j`-th label is the ground-truth token at position
`p + 1`. -/
theorem calibration_rows_labels_aligned {G : Type} (ds : DatasetI G)
    (num_last : List String → String → Nat) (g : G) (tokens : List Nat)
    (start_idx end_idx : Nat) (acts : ProbePoint → List Tensor3) (key : ProbePoint)
    (gidx : Nat)
    (hb : calib_bounds ds num_last g = Except.ok (tokens, start_idx, end_idx))
    (h1 : start_idx ≤ end_idx) (h2 : end_idx ≤ tokens.length)
    (h3 : end_idx ≤ (((acts key).getD gidx []).getD 0 []).length + 1) :
    (calib_X_entry acts key gidx start_idx end_idx).length =
      (calib_y_entry tokens start_idx end_idx).length
    ∧ tokens.getD (start_idx - 2) 0 = ds.start_token
    ∧ ∀ j, j < (calib_y_entry tokens start_idx end_idx).length →
        (calib_X_entry acts key gidx start_idx end_idx).getD j [] =
          (((acts key).getD gidx []).getD 0 []).getD (start_idx - 1 + j) []
        ∧ (calib_y_entry tokens start_idx end_idx).getD j 0 =
          tokens.getD ((start_idx - 1 + j) + 1) 0
        ∧ start_idx - 2 < start_idx - 1 + j
        ∧ (start_idx - 1 + j) + 1 < end_idx := by
  obtain ⟨htok, hs2, hlt, hmark, hend⟩ := calib_bounds_ok_inv ds num_last g tokens
    start_idx end_idx hb
  have hcs : ((start_idx : Int) - 1) = (((start_idx - 1 : Nat) : Nat) : Int) := by omega
  have hce : ((end_idx : Int) - 1) = (((end_idx - 1 : Nat) : Nat) : Int) := by omega
  have hXdef : calib_X_entry acts key gidx start_idx end_idx =
      pySlice (((acts key).getD gidx []).getD 0 [])
        ((start_idx - 1 : Nat) : Int) ((end_idx - 1 : Nat) : Int) := by
    rw [calib_X_entry, hcs, hce]
  have hab' : start_idx - 1 ≤ end_idx - 1 := by omega
  have hbT : end_idx - 1 ≤ (((acts key).getD gidx []).getD 0 []).length := by omega
  have hXlen : (calib_X_entry acts key gidx start_idx end_idx).length =
      (end_idx - 1) - (start_idx - 1) := by
    rw [hXdef, pySlice_nat_length _ _ _ hab' hbT]
  have hylen : (calib_y_entry tokens start_idx end_idx).length = end_idx - start_idx := by
    rw [calib_y_entry, pySlice_nat_length _ _ _ h1 h2]
  refine ⟨by omega, hmark, ?_⟩
  intro j hj
  rw [hylen] at hj
  refine ⟨?_, ?_, by omega, by omega⟩
  · rw [hXdef, pySlice_nat_getD _ _ _ _ _ hab' hbT (by omega)]
  · rw [calib_y_entry, pySlice_nat_getD _ _ _ _ _ h1 h2 (by omega)]
    have : start_idx + j = (start_idx - 1 + j) + 1 := by omega
    rw [this]

/-- Witness for C6 on a concrete example (`start_idx = 3`, `end_idx = 4`). -/
theorem calibration_rows_labels_aligned_witness :
    (calib_bounds dsW6 (fun _ _ => 4) 0 = Except.ok ([9, 5, 7, 7], 3, 4) ∧
      3 ≤ 4 ∧ 4 ≤ ([9, 5, 7, 7] : List Nat).length ∧
      4 ≤ (((actsW6 ProbePoint.lnFinalNormalized).getD 0 []).getD 0 []).length + 1) ∧
    ((calib_X_entry actsW6 ProbePoint.lnFinalNormalized 0 3 4).length =
      (calib_y_entry [9, 5, 7, 7] 3 4).length
    ∧ ([9, 5, 7, 7] : List Nat).getD (3 - 2) 0 = dsW6.start_token
    ∧ ∀ j, j < (calib_y_entry [9, 5, 7, 7] 3 4).length →
        (calib_X_entry actsW6 ProbePoint.lnFinalNormalized 0 3 4).getD j [] =
          (((actsW6 ProbePoint.lnFinalNormalized).getD 0 []).getD 0 []).getD (3 - 1 + j) []
        ∧ (calib_y_entry [9, 5, 7, 7] 3 4).getD j 0 =
          ([9, 5, 7, 7] : List Nat).getD ((3 - 1 + j) + 1) 0
        ∧ 3 - 2 < 3 - 1 + j
        ∧ (3 - 1 + j) + 1 < 4) :=
  ⟨⟨rfl, by decide, by decide, by decide⟩,
    calibration_rows_labels_aligned dsW6 (fun _ _ => 4) 0 [9, 5, 7, 7] 3 4 actsW6
      ProbePoint.lnFinalNormalized 0 rfl (by decide) (by decide) (by decide)⟩

/-- Value of `getD` on a mapped index range. -/
theorem getD_map_range {α : Type} (n j : Nat) (f : Nat → α) (d : α) (h : j < n) :
    ((List.range n).map f).getD j d = f j := by
  rw [List.getD_eq_getElem?_getD, List.getElem?_map, List.getElem?_range h]
  rfl

/-- A successful `torch.cat` is the concatenation of a nonempty tensor list. -/
theorem torch_cat_ok_inv {α : Type} (ts : List (List α)) (t : List α)
    (h : torch_cat ts = Except.ok t) : t = ts.flatten := by
  cases ts with
  | nil => exact Except.noConfusion h
  | cons x xs =>
    injection h with h
    exact h.symm

/-- A successful `np.concatenate` is the concatenation of a nonempty list. -/
theorem np_concatenate_ok_inv {α : Type} (xs : List (List α)) (t : List α)
    (h : np_concatenate xs = Except.ok t) : t = xs.flatten := by
  cases xs with
  | nil => exact Except.noConfusion h
  | cons x xs =>
    injection h with h
    exact h.symm

/-- A successful per-key `torch.cat` pass concatenates each key's row blocks
in key order. -/
theorem mapM_cat_ok (X : ProbePoint → List (List (List Val)))
    (keys : List ProbePoint) (l : List (ProbePoint × List (List Val)))
    (h : keys.mapM (fun k => do
        let t ← torch_cat (X k)
        pure (k, t)) = Except.ok l) :
    l = keys.map (fun k => (k, (X k).flatten)) := by
  induction keys generalizing l with
  | nil =>
    rw [List.mapM_nil] at h
    injection h with h
    subst h
    rfl
  | cons k ks ih =>
    rw [List.mapM_cons] at h
    rw [except_bind_ok] at h
    obtain ⟨xa, hxa, h⟩ := h
    rw [except_bind_ok] at h
    obtain ⟨xs, hxs, h⟩ := h
    injection h with h
    subst h
    rw [except_bind_ok] at hxa
    obtain ⟨t, ht, hxa⟩ := hxa
    injection hxa with hxa
    subst hxa
    rw [List.map_cons, torch_cat_ok_inv _ _ ht, ih _ hxs]

/-- A successful `fit_translators` stores, per key in order, the transpose of
the weight matrix fitted with `fit_intercept=False` on that key's
concatenated rows and the concatenated labels. -/
theorem fit_translators_ok_inv
    (probe_fit : Bool → List (List Val) → List Nat → List (List Val))
    (keys : List ProbePoint) (X : ProbePoint → List (List (List Val)))
    (y : List (List Nat)) (res : List (ProbePoint × List (List Val)))
    (h : fit_translators probe_fit keys X y = Except.ok res) :
    res = keys.map (fun k =>
      (k, transposeMat (probe_fit false (X k).flatten y.flatten))) := by
  simp only [fit_translators] at h
  rw [except_bind_ok] at h
  obtain ⟨Xc, hXc, h⟩ := h
  rw [except_bind_ok] at h
  obtain ⟨yc, hyc, h⟩ := h
  injection h with h
  subst h
  rw [mapM_cat_ok X keys Xc hXc, np_concatenate_ok_inv y yc hyc, List.map_map]
  rfl

/-- Shape and product semantics of the transposed weight matrix: for a
vocab × hidden weight matrix, the transpose has hidden × vocab orientation
and a residual row vector right-multiplied by it yields, at token `j`, the
dot product of the vector with class `j`'s weight row (the per-token logit). -/
theorem transposeMat_shape_and_product (W : List (List Val)) (d_vocab d_model : Nat)
    (hv : 0 < d_vocab) (hm : 0 < d_model) (hW1 : W.length = d_vocab)
    (hW2 : ∀ r ∈ W, r.length = d_model) :
    (transposeMat W).length = d_model
    ∧ (∀ row ∈ transposeMat W, row.length = d_vocab)
    ∧ ∀ v : List Val, v.length = d_model → ∀ j, j < d_vocab →
        (vecMatMul v (transposeMat W)).getD j 0 =
          ((List.range d_model).map
            (fun d => v.getD d 0 * (W.getD j []).getD d 0)).sum := by
  have hhead : (W.headD []).length = d_model := by
    cases W with
    | nil => simp at hW1; omega
    | cons r W1 => exact hW2 r (List.mem_cons_self r W1)
  have hT : transposeMat W =
      (List.range d_model).map (fun i => W.map (fun row => row.getD i 0)) := by
    rw [transposeMat, hhead]
  refine ⟨?_, ?_, ?_⟩
  · rw [hT]
    simp
  · intro row hrow
    rw [hT] at hrow
    obtain ⟨i, hi, rfl⟩ := List.mem_map.mp hrow
    simp [hW1]
  · intro v hvlen j hj
    have hTheadlen : ((transposeMat W).headD []).length = d_vocab := by
      rw [hT]
      obtain ⟨dm1, rfl⟩ : ∃ dm1, d_model = dm1 + 1 := ⟨d_model - 1, by omega⟩
      rw [List.range_succ_eq_map]
      simp [hW1]
    rw [vecMatMul, hTheadlen, getD_map_range _ _ _ _ hj, dotCol, hvlen]
    congr 1
    apply List.map_congr_left
    intro d hd
    have hdm : d < d_model := List.mem_range.mp hd
    have hTd : (transposeMat W).getD d [] = W.map (fun row => row.getD d 0) := by
      rw [hT, getD_map_range _ _ _ _ hdm]
    rw [hTd]
    have hjW : j < W.length := by omega
    have hWj : W.getD j [] = W[j] := by
      rw [List.getD_eq_getElem?_getD W j [], List.getElem?_eq_getElem hjW]
      rfl
    have hmap : (W.map (fun row => row.getD d 0)).getD j 0 = (W.getD j []).getD d 0 := by
      rw [List.getD_eq_getElem?_getD, List.getElem?_map,
        List.getElem?_eq_getElem hjW, hWj]
      rfl
    rw [hmap]

/-- C7: a successful calibration stage fits, for every probe point in order,
the linear probe with `fit_intercept = false` on that probe point's
concatenated training rows and the concatenated labels, and stores the
fitted vocab × hidden weight matrix transposed into hidden × vocab
orientation, so that a residual row vector right-multiplied by the stored
matrix yields the per-token logits (dot products with the class weight
rows). -/
theorem tuned_lens_fit_no_intercept_transposed
    (probe_fit : Bool → List (List Val) → List Nat → List (List Val))
    (keys : List ProbePoint) (X : ProbePoint → List (List (List Val)))
    (y : List (List Nat)) (res : List (ProbePoint × List (List Val)))
    (d_vocab d_model : Nat)
    (h : fit_translators probe_fit keys X y = Except.ok res)
    (hv : 0 < d_vocab) (hm : 0 < d_model) :
    res = keys.map (fun k =>
      (k, transposeMat (probe_fit false (X k).flatten y.flatten)))
    ∧ ∀ W : List (List Val), W.length = d_vocab → (∀ r ∈ W, r.length = d_model) →
        (transposeMat W).length = d_model
        ∧ (∀ row ∈ transposeMat W, row.length = d_vocab)
        ∧ ∀ v : List Val, v.length = d_model → ∀ j, j < d_vocab →
            (vecMatMul v (transposeMat W)).getD j 0 =
              ((List.range d_model).map
                (fun d => v.getD d 0 * (W.getD j []).getD d 0)).sum := by
  refine ⟨fit_translators_ok_inv probe_fit keys X y res h, ?_⟩
  intro W hW1 hW2
  exact transposeMat_shape_and_product W d_vocab d_model hv hm hW1 hW2

/-- Witness for C7 on concrete calibration data. -/
theorem tuned_lens_fit_no_intercept_transposed_witness :
    (fit_translators probeFitW [ProbePoint.lnFinalNormalized] XW [[3, 4]] =
      Except.ok [(ProbePoint.lnFinalNormalized, [[1], [2]])] ∧
      0 < 1 ∧ 0 < 2) ∧
    ([(ProbePoint.lnFinalNormalized, ([[1], [2]] : List (List Val)))] =
      ([ProbePoint.lnFinalNormalized] : List ProbePoint).map (fun k =>
        (k, transposeMat (probeFitW false (XW k).flatten
          (([[3, 4]] : List (List Nat)).flatten))))
    ∧ ∀ W : List (List Val), W.length = 1 → (∀ r ∈ W, r.length = 2) →
        (transposeMat W).length = 2
        ∧ (∀ row ∈ transposeMat W, row.length = 1)
        ∧ ∀ v : List Val, v.length = 2 → ∀ j, j < 1 →
            (vecMatMul v (transposeMat W)).getD j 0 =
              ((List.range 2).map
                (fun d => v.getD d 0 * (W.getD j []).getD d 0)).sum) :=
  ⟨⟨rfl, by decide, by decide⟩,
    tuned_lens_fit_no_intercept_transposed probeFitW [ProbePoint.lnFinalNormalized]
      XW [[3, 4]] [(ProbePoint.lnFinalNormalized, [[1], [2]])] 1 2 rfl
      (by decide) (by decide)⟩

